import Mathlib

/-!
Verification of the TMMC-GEE polymer simulation engine (tmmc-ljpoly-rg.py).
Python floats are modelled as exact reals; a Python exception escaping a
function is modelled by `Option.none` (or a `crashed` flag on walker states).
-/

set_option maxHeartbeats 1000000

namespace TmmcLjpoly

noncomputable section

/-- A numpy row of three floats (a 3D position or displacement). -/
abbrev Vec3 := Fin 3 → ℝ

/-- Modelled from the spec: the helper `calculate_distance_sq` is called by
`calculate_polymer_solvent_interaction_c4` (line 264) but is not defined in the
available source.  Spec section 4.1 specifies the soft-core polymer-solvent term
through the plain squared separation (no minimum-image wrap, in contrast with
`solventSolventEnergy` where the spec demands minimum image), matching the
in-source Cell-3 helper `calculate_distance_sq_c3`. -/
def calculate_distance_sq (p1 p2 : Vec3) : ℝ := ∑ i, (p1 i - p2 i) ^ 2

/-- Soft-core lambda-scaled LJ pair energy (source lines 254-259). -/
def calculate_lj_energy_pair_modified_c4 (r_sq lambda_val epsilon_ms sigma_ms : ℝ) : ℝ :=
  if r_sq < 1e-12 then (if lambda_val > 1e-9 then 1e10 else 0)
  else
    let sr6 := (sigma_ms ^ 2 / r_sq) ^ 3
    let denominator_base := 0.5 * (1 - lambda_val) ^ 2 + sr6
    if |denominator_base| < 1e-12 then (if lambda_val > 1e-9 then 1e10 else 0)
    else 4 * lambda_val * epsilon_ms * (1 / denominator_base ^ 2 - 1 / denominator_base)

/-- Polymer-solvent soft-core interaction energy (source lines 261-265). -/
def calculate_polymer_solvent_interaction_c4
    (polymer_coords solvent_coords : List Vec3) (lambda_val eps_ms sigma_ms : ℝ) : ℝ :=
  if solvent_coords.length = 0 then 0
  else (polymer_coords.map (fun p =>
    (solvent_coords.map (fun s =>
      calculate_lj_energy_pair_modified_c4 (calculate_distance_sq p s)
        lambda_val eps_ms sigma_ms)).sum)).sum

/-- Standard 12-6 LJ pair energy (source lines 267-270).  In the source the
one-line `if r_sq < 1e-12: return 1e10; sigma_sq = ...; inv_r_sq = ...` puts
both assignments inside the early-return suite, so for `r_sq >= 1e-12` the next
line reads the never-assigned locals `sigma_sq`/`inv_r_sq` and the call raises
UnboundLocalError; `none` models that exception. -/
def calculate_lj_energy_pair_standard_c4 (r_sq epsilon sigma : ℝ) : Option ℝ :=
  if r_sq < 1e-12 then some 1e10 else none

/-- np.rint: round to the nearest integer, ties to the nearest even integer
(used by the minimum-image wrap at source line 277). -/
def rint (x : ℝ) : ℝ :=
  if Int.fract x = 1 / 2 then ((2 * round (x / 2) : ℤ) : ℝ) else ((round x : ℤ) : ℝ)

/-- Squared minimum-image separation of two solvent sites in a cubic box
(source line 277: `rij = rij - box_dim_arr*np.rint(rij/box_dim_arr)`). -/
def minimum_image_dist_sq (box : ℝ) (a b : Vec3) : ℝ :=
  ∑ i, (b i - a i - box * rint ((b i - a i) / box)) ^ 2

/-- Sum of a list of fallible energy terms; any raised exception aborts the
whole sum, as in Python. -/
def optSum : List (Option ℝ) → Option ℝ
  | [] => some 0
  | o :: rest =>
    match o, optSum rest with
    | some x, some y => some (x + y)
    | _, _ => none

/-- The `for i / for j in range(i+1, Nsol)` double loop of
`calculate_solvent_solvent_energy_c4`: every unordered pair is visited once. -/
def ss_pair_sum (eps_ss sigma_ss box : ℝ) : List Vec3 → Option ℝ
  | [] => some 0
  | x :: xs =>
    match optSum (xs.map (fun y =>
        calculate_lj_energy_pair_standard_c4 (minimum_image_dist_sq box x y) eps_ss sigma_ss)),
      ss_pair_sum eps_ss sigma_ss box xs with
    | some e1, some e2 => some (e1 + e2)
    | _, _ => none

/-- Solvent-solvent LJ energy under minimum image, no cutoff at the call site
(source lines 272-279; `get_total_system_energy` passes `cutoff_sq=None`). -/
def calculate_solvent_solvent_energy_c4
    (solvent_coords : List Vec3) (eps_ss sigma_ss box : ℝ) : Option ℝ :=
  if solvent_coords.length < 2 then some 0
  else ss_pair_sum eps_ss sigma_ss box solvent_coords

/-- `np.linspace(0, 1, M)` entry `i` (source line 290). -/
def lambda_values (M i : ℕ) : ℝ :=
  if M ≤ 1 then 0 else (i : ℝ) / ((M : ℝ) - 1)

/-- The configuration fields read by `get_total_system_energy`. -/
structure SimParams where
  num_growth_stages : ℕ
  num_solvent_particles : ℕ
  box_side_length : ℝ
  eps_ms : ℝ
  sigma_ms : ℝ
  eps_ss : ℝ
  sigma_ss : ℝ

/-- Total system energy at a growth stage (source lines 322-327): soft-core
polymer-solvent term plus solvent-solvent term.  `none` models a Python
exception escaping from the solvent-solvent kernel. -/
def get_total_system_energy (P : SimParams) (polymer_coords solvent_coords : List Vec3)
    (stage_idx : ℕ) : Option ℝ :=
  if solvent_coords.length = 0 ∧ P.num_solvent_particles = 0 then some 0
  else
    let lam := lambda_values P.num_growth_stages stage_idx
    let U_ps := calculate_polymer_solvent_interaction_c4 polymer_coords solvent_coords
      lam P.eps_ms P.sigma_ms
    (calculate_solvent_solvent_energy_c4 solvent_coords P.eps_ss P.sigma_ss
      P.box_side_length).map (fun U_ss => U_ps + U_ss)

/-- Rigid translation of every solvent site by `m * L`, the transformation the
periodicity claim quantifies over. -/
def translateSolvent (box : ℝ) (m : Fin 3 → ℤ) (solvent_coords : List Vec3) : List Vec3 :=
  solvent_coords.map (fun s i => s i + (m i : ℝ) * box)

/-- Concrete data for the periodicity counterexample: one monomer at the
origin. -/
def cexPoly : List Vec3 := [fun _ => 0]

/-- Concrete data for the periodicity counterexample: one solvent particle at
(2,0,0). -/
def cexSolv : List Vec3 := [fun i => if i = 0 then 2 else 0]

/-- Concrete data for the periodicity counterexample: translate by one box
length along x. -/
def cexm : Fin 3 → ℤ := fun i => if i = 0 then 1 else 0

/-- Concrete parameters for the periodicity counterexample: 2 growth stages,
1 solvent particle, box 8.9, all LJ parameters 1. -/
def cexP : SimParams := ⟨2, 1, 8.9, 1, 1, 1, 1⟩

/-! ### Growth-stage transition attempt (source lines 344-378) -/

/-- `eta = np.ones(num_growth_stages)` at walker creation (source line 294). -/
def eta_init : ℕ → ℝ := fun _ => 1

/-- Candidate neighbour stage `k_target_for_biased_walk` (source lines 347-351):
`j+1` when growing below the top stage, `j-1` when shrinking above stage 0,
otherwise no candidate (`-1` in the source). -/
def candidateOf (M : ℕ) (growth_phase_active : Bool) (j : ℕ) : Option ℕ :=
  if growth_phase_active then (if j < M - 1 then some (j + 1) else none)
  else (if 0 < j then some (j - 1) else none)

/-- Boundary `log(2)` correction (source lines 356-357), with
`max_stage_idx = M - 1`. -/
def log2_correction (M j k : ℕ) : ℝ :=
  if (j = 0 ∧ k = 1) ∨ (j = M - 1 - 1 ∧ k = M - 1) then Real.log 2
  else if (j = 1 ∧ k = 0) ∨ (j = M - 1 ∧ k = M - 1 - 1) then -Real.log 2
  else 0

/-- Modelled from the spec: the boundary correction `c` exactly as the claim
words it (`ln 2` for `0→1` and `(M-2)→(M-1)`, `-ln 2` for `1→0` and
`(M-1)→(M-2)`, else 0), stated without truncated subtraction for comparison
with the source's `log2_correction`. -/
def claimBoundaryC (M j k : ℕ) : ℝ :=
  if (j = 0 ∧ k = 1) ∨ (j + 2 = M ∧ k + 1 = M) then Real.log 2
  else if (j = 1 ∧ k = 0) ∨ (j + 1 = M ∧ k + 2 = M) then -Real.log 2
  else 0

/-- The `np.exp(x) if x < 0 else 1.0` pattern used for both the
collection-matrix factor (line 359) and the walk acceptance (line 374). -/
def clampExp (x : ℝ) : ℝ := if x < 0 then Real.exp x else 1

/-- Collection-matrix factor for one attempt (source lines 355-360):
`factor_for_Ci_update = min(1.0, exp(log_boltzmann + log2_correction) if .. else 1.0)`. -/
def factor_for_Ci_update (beta dU c : ℝ) : ℝ := min 1 (clampExp (-beta * dU + c))

/-- Biased-walk acceptance probability (source lines 365-374).  The source
computes `log_eta_ratio_walk` as `-inf` when the ratio is not `> 1e-12` (or
when `|eta j| <= 1e-12` with `delta_U*beta > 0`); then
`log_p_acc_unbounded_walk = -inf < 0` and `np.exp(-inf) = 0.0`, which this
real-valued model returns directly as `0`. -/
def p_acc_biased_walk (beta : ℝ) (eta : ℕ → ℝ) (j k : ℕ) (dU c : ℝ) : ℝ :=
  if |eta j| > 1e-12 then
    (if eta k / eta j > 1e-12 then clampExp (Real.log (eta k / eta j) + -beta * dU + c)
     else 0)
  else if dU * beta > 0 then 0
  else clampExp (-beta * dU + c)

/-- Modelled from the spec: the acceptance probability exactly as the claim
states it, `min(1, exp(ln(eta k / eta j) - beta*dU + c))`. -/
def p_acc_spec (beta : ℝ) (eta : ℕ → ℝ) (j k : ℕ) (dU c : ℝ) : ℝ :=
  min 1 (Real.exp (Real.log (eta k / eta j) + -beta * dU + c))

/-- The per-attempt inputs of one growth-stage transition attempt: the phase
flag passed in, the total-system-energy landscape over stages at attempt time,
the current bias weights, and the `random.random()` draw of line 375. -/
structure GEEStep where
  growth : Bool
  U : ℕ → ℝ
  eta : ℕ → ℝ
  rand : ℝ

/-- The walker state touched by `attempt_growth_stage_transition`: current
stage index, condensed collection matrix (columns 0 = to `j-1`, 1 = stay,
2 = to `j+1`), and whether a Python exception has been raised. -/
structure WalkerCState where
  j : ℕ
  C : ℕ → Fin 3 → ℝ
  crashed : Bool

/-- One call of `attempt_growth_stage_transition` (source lines 344-378).
With a candidate `k` the collection matrix row `j` receives the factor in the
direction column and its complement in the stay column, and the walker moves
iff `random.random() < p_acc_biased_for_walk`.  Without a candidate the stay
column receives 1 (line 364), after which line 375 reads the local
`p_acc_biased_for_walk`, assigned only inside the `k != -1` branch (line 365
initialises the differently named `p_acc_biased_walk`), so the call raises
UnboundLocalError: `crashed := true` with the already-performed matrix update
kept, as the Python object state would be. -/
def attempt_growth_stage_transition (M : ℕ) (beta : ℝ) (st : GEEStep)
    (s : WalkerCState) : WalkerCState :=
  match candidateOf M st.growth s.j with
  | some k =>
    let dU := st.U k - st.U s.j
    let c := log2_correction M s.j k
    let w := factor_for_Ci_update beta dU c
    let C' := fun r col =>
      if r = s.j ∧ col = (if s.j < k then (2 : Fin 3) else 0) then s.C r col + w
      else if r = s.j ∧ col = 1 then s.C r col + (1 - w)
      else s.C r col
    let p := p_acc_biased_walk beta st.eta s.j k dU c
    ⟨if st.rand < p then k else s.j, C', false⟩
  | none =>
    let C' := fun r col => if r = s.j ∧ col = 1 then s.C r col + 1 else s.C r col
    ⟨s.j, C', true⟩

/-- Run a sequence of transition attempts in order; once a call has raised
(crashed) no further attempt executes. -/
def runAttempts (M : ℕ) (beta : ℝ) : List GEEStep → WalkerCState → WalkerCState
  | [], s => s
  | st :: rest, s =>
    if s.crashed then s
    else runAttempts M beta rest (attempt_growth_stage_transition M beta st s)

/-- Number of attempts of a sequence executed while the walker sat at stage
`r`. -/
def attemptsFrom (M : ℕ) (beta : ℝ) (r : ℕ) : List GEEStep → WalkerCState → ℕ
  | [], _ => 0
  | st :: rest, s =>
    if s.crashed then 0
    else (if s.j = r then 1 else 0) +
      attemptsFrom M beta r rest (attempt_growth_stage_transition M beta st s)

/-- Sum of one row of the condensed collection matrix. -/
def rowSum (C : ℕ → Fin 3 → ℝ) (r : ℕ) : ℝ := C r 0 + C r 1 + C r 2

/-! ### Bias-weight re-estimation (source lines 380-413) -/

/-- One `delta_F_step` of the eta re-estimation loop (source lines 384-394). -/
def delta_F_step (beta : ℝ) (C : ℕ → Fin 3 → ℝ) (j : ℕ) : ℝ :=
  let N_j := C j 0 + C j 1 + C j 2
  let N_jplus1 := C (j + 1) 0 + C (j + 1) 1 + C (j + 1) 2
  let P_j_to_jplus1 := C j 2 / (N_j + 1e-12)
  let P_jplus1_to_j := C (j + 1) 0 / (N_jplus1 + 1e-12)
  if P_jplus1_to_j < 1e-12 then (if P_j_to_jplus1 < 1e-12 then 0 else -20)
  else if P_j_to_jplus1 < 1e-12 then 20
  else
    let r := P_j_to_jplus1 / P_jplus1_to_j
    if r > 1e-9 then -(1 / beta) * Real.log r
    else if r < -1e-9 then 20
    else 0

/-- The cumulative `temp_F` profile of `update_eta_biasing_factors`
(source lines 382-395): `temp_F[0] = 0`, `temp_F[j+1] = temp_F[j] + delta`. -/
def temp_F (beta : ℝ) (C : ℕ → Fin 3 → ℝ) : ℕ → ℝ
  | 0 => 0
  | j + 1 => temp_F beta C j + delta_F_step beta C j

/-- `update_eta_biasing_factors` (source lines 380-413), parametrised by the
stage count, inverse temperature, damping factor, collection matrix and prior
eta.  In the exact-real model every `temp_F` entry is finite, so
`np.any(np.isfinite(temp_F))` is `len(temp_F) > 0`, the valid elements are all
of `temp_F`, and `probabilities_p_j[~np.isfinite(...)] = 0` is a no-op. -/
def update_eta_biasing_factors (M : ℕ) (beta damping_factor : ℝ)
    (C : ℕ → Fin 3 → ℝ) (eta : ℕ → ℝ) : ℕ → ℝ :=
  if hM : M = 0 then fun _ => 1
  else
    let F := temp_F beta C
    let min_F_val := (Finset.range M).inf' (Finset.nonempty_range_iff.mpr hM) F
    let shifted_F := fun j => F j - min_F_val
    let probabilities_p_j := fun j => Real.exp (-beta * shifted_F j)
    let sum_p := ∑ j ∈ Finset.range M, probabilities_p_j j
    if sum_p > 1e-9 then
      let pn := fun j => probabilities_p_j j / sum_p
      let new_eta := fun j => 1 / (pn j + 1e-12)
      let valid := (Finset.range M).filter (fun j => pn j > 1e-12)
      let min_valid0 := if hv : valid.Nonempty then valid.inf' hv new_eta else 1
      let min_valid_new_eta := if min_valid0 < 1e-9 then 1 else min_valid0
      fun j => (1 - damping_factor) * eta j +
        damping_factor * (new_eta j / min_valid_new_eta)
    else fun _ => 1

/-! ### Free-energy estimator (source lines 481-507) -/

/-- One `delta_F_step` of `FreeEnergyCalculator_Cell4.calculate_F_i_j_minus_F_i_1`
(source lines 488-497), transcribed from that method. -/
def est_delta_F_step (beta : ℝ) (C : ℕ → Fin 3 → ℝ) (j : ℕ) : ℝ :=
  let N_j := C j 0 + C j 1 + C j 2
  let N_jplus1 := C (j + 1) 0 + C (j + 1) 1 + C (j + 1) 2
  let P_j_to_jplus1 := C j 2 / (N_j + 1e-12)
  let P_jplus1_to_j := C (j + 1) 0 / (N_jplus1 + 1e-12)
  if P_jplus1_to_j < 1e-12 then (if P_j_to_jplus1 < 1e-12 then 0 else -20)
  else if P_j_to_jplus1 < 1e-12 then 20
  else
    let r := P_j_to_jplus1 / P_jplus1_to_j
    if r > 1e-9 then -(1 / beta) * Real.log r
    else if r < -1e-9 then 20
    else 0

/-- `calculate_F_i_j_minus_F_i_1` (source lines 485-499): the final-estimator
profile `F_diffs`, `F_diffs[0] = 0`, `F_diffs[j+1] = F_diffs[j] + delta`. -/
def calculate_F_i_j_minus_F_i_1 (beta : ℝ) (C : ℕ → Fin 3 → ℝ) : ℕ → ℝ
  | 0 => 0
  | j + 1 => calculate_F_i_j_minus_F_i_1 beta C j + est_delta_F_step beta C j

/-- Per-bin entry of `calculate_delta_F_i1_initial` (source lines 500-507);
`none` models the `float('inf')` sentinel. -/
def calculate_delta_F_i1_initial (beta : ℝ) (ni_counts : ℕ → ℕ) (n1_count_ref_bin : ℕ)
    (bin_idx : ℕ) : Option ℝ :=
  if ni_counts bin_idx = 0 ∨ n1_count_ref_bin = 0 then none
  else some (-(1 / beta) * Real.log ((ni_counts bin_idx : ℝ) / (n1_count_ref_bin : ℝ)))

/-! ### Concrete instances used by witnesses and counterexamples -/

/-- Concrete attempt inputs witnessing C2: growing from stage 0 of 3, zero
energies, unit bias weights. -/
def c2_step : GEEStep := ⟨true, fun _ => 0, fun _ => 1, 1 / 2⟩

/-- Concrete walker state witnessing C2. -/
def c2_state : WalkerCState := ⟨0, fun _ _ => 0, false⟩

/-- Concrete attempt inputs for C5: Growing phase while already at the top
stage `M - 1 = 1`, so no candidate exists. -/
def c5_step : GEEStep := ⟨true, fun _ => 0, fun _ => 1, 1 / 2⟩

/-- Concrete walker state for C5: stage 1 of M = 2, zero matrix. -/
def c5_state : WalkerCState := ⟨1, fun _ _ => 0, false⟩

/-- Bias weights for the C3 counterexample: `eta 0 = 1e13` (not numerically
zero), `eta 1 = 1`, so the ratio `eta 1 / eta 0 = 1e-13` falls below the
source's `1e-12` ratio guard. -/
def c3_eta : ℕ → ℝ := fun i => if i = 0 then 1e13 else 1

/-- Collection matrix for the C4 counterexample (M = 2): one recorded
`0 → 1` flux and nothing else. -/
def c4_C : ℕ → Fin 3 → ℝ := fun r c => if r = 0 ∧ c = 2 then 1 else 0

/-- Prior bias weights for the C4 counterexample: strictly positive with
minimum (valid) entry exactly 1, as the claimed invariant requires. -/
def c4_eta : ℕ → ℝ := fun i => if i = 0 then 1 else 2

/-! ### Helper lemmas -/

/-- The soft-core pair energy vanishes at `lambda_val = 0` in every branch. -/
lemma modified_pair_zero_lambda (r_sq e s : ℝ) :
    calculate_lj_energy_pair_modified_c4 r_sq 0 e s = 0 := by
  unfold calculate_lj_energy_pair_modified_c4
  dsimp only
  have h9 : ¬((0 : ℝ) > 1e-9) := by norm_num
  rw [if_neg h9]
  split_ifs with h1 h2
  · rfl
  · rfl
  · ring

/-- `exp(x) if x < 0 else 1.0` equals `min(1, exp(x))`. -/
lemma clampExp_eq_min (x : ℝ) : clampExp x = min 1 (Real.exp x) := by
  unfold clampExp
  split_ifs with h
  · rw [min_eq_right]
    exact le_of_lt (by simpa using Real.exp_lt_one_iff.mpr h)
  · rw [min_eq_left]
    simpa using Real.one_le_exp_iff.mpr (not_lt.mp h)

/-- The two textually identical `delta_F_step` loops agree. -/
lemma est_step_eq_delta_step (beta : ℝ) (C : ℕ → Fin 3 → ℝ) (j : ℕ) :
    est_delta_F_step beta C j = delta_F_step beta C j := rfl

/-- Case analysis for an existing candidate neighbour. -/
lemma candidateOf_eq_some {M : ℕ} {g : Bool} {j k : ℕ}
    (h : candidateOf M g j = some k) :
    (g = true ∧ k = j + 1 ∧ j < M - 1) ∨ (g = false ∧ k = j - 1 ∧ 0 < j) := by
  unfold candidateOf at h
  cases g with
  | true =>
    left
    by_cases hj : j < M - 1
    · simp only [if_true, if_pos hj, Option.some.injEq] at h
      exact ⟨rfl, h.symm, hj⟩
    · simp [hj] at h
  | false =>
    right
    by_cases hj : 0 < j
    · simp only [Bool.false_eq_true, if_false, if_pos hj, Option.some.injEq] at h
      exact ⟨rfl, h.symm, hj⟩
    · simp [hj] at h

/-- On every transition that actually has a candidate, the source's
`log2_correction` coincides with the claim's description of the boundary
constant `c`. -/
lemma log2_correction_eq_claim {M : ℕ} {g : Bool} {j k : ℕ}
    (h : candidateOf M g j = some k) :
    log2_correction M j k = claimBoundaryC M j k := by
  rcases candidateOf_eq_some h with ⟨_, hk, hj⟩ | ⟨_, hk, hj⟩ <;>
  · have e1 : ((j = 0 ∧ k = 1) ∨ (j = M - 1 - 1 ∧ k = M - 1)) ↔
        ((j = 0 ∧ k = 1) ∨ (j + 2 = M ∧ k + 1 = M)) := by omega
    have e2 : ((j = 1 ∧ k = 0) ∨ (j = M - 1 ∧ k = M - 1 - 1)) ↔
        ((j = 1 ∧ k = 0) ∨ (j + 1 = M ∧ k + 2 = M)) := by omega
    rw [log2_correction, claimBoundaryC]
    simp only [e1, e2]

/-- The collection-matrix factor in the claim's `min(1, exp(...))` form. -/
lemma factor_eq_min_exp (beta dU c : ℝ) :
    factor_for_Ci_update beta dU c = min 1 (Real.exp (-beta * dU + c)) := by
  rw [factor_for_Ci_update, clampExp_eq_min, ← min_assoc, min_self]

lemma factor_nonneg (beta dU c : ℝ) : 0 ≤ factor_for_Ci_update beta dU c := by
  rw [factor_eq_min_exp]
  exact le_min (by norm_num) (Real.exp_pos _).le

lemma factor_le_one (beta dU c : ℝ) : factor_for_Ci_update beta dU c ≤ 1 := by
  rw [factor_eq_min_exp]
  exact min_le_left _ _

/-- Shape of the attempt's state when a candidate exists. -/
lemma attempt_some (M : ℕ) (beta : ℝ) (st : GEEStep) (s : WalkerCState) (k : ℕ)
    (hk : candidateOf M st.growth s.j = some k) :
    attempt_growth_stage_transition M beta st s =
      ⟨if st.rand < p_acc_biased_walk beta st.eta s.j k (st.U k - st.U s.j)
          (log2_correction M s.j k) then k else s.j,
       fun r col =>
        if r = s.j ∧ col = (if s.j < k then (2 : Fin 3) else 0)
        then s.C r col + factor_for_Ci_update beta (st.U k - st.U s.j) (log2_correction M s.j k)
        else if r = s.j ∧ col = 1
        then s.C r col + (1 - factor_for_Ci_update beta (st.U k - st.U s.j) (log2_correction M s.j k))
        else s.C r col,
       false⟩ := by
  unfold attempt_growth_stage_transition
  rw [hk]

/-- Shape of the attempt's state when no candidate exists: the stay column is
bumped and then the read of the unassigned `p_acc_biased_for_walk` raises. -/
lemma attempt_none (M : ℕ) (beta : ℝ) (st : GEEStep) (s : WalkerCState)
    (hk : candidateOf M st.growth s.j = none) :
    attempt_growth_stage_transition M beta st s =
      ⟨s.j, fun r col => if r = s.j ∧ col = 1 then s.C r col + 1 else s.C r col, true⟩ := by
  unfold attempt_growth_stage_transition
  rw [hk]

/-- Each attempt adds exactly 1 in total to the row of the stage it was made
from, and nothing to other rows. -/
lemma attempt_rowSum (M : ℕ) (beta : ℝ) (st : GEEStep) (s : WalkerCState) (r : ℕ) :
    rowSum (attempt_growth_stage_transition M beta st s).C r
      = rowSum s.C r + (if s.j = r then 1 else 0) := by
  cases hk : candidateOf M st.growth s.j with
  | none =>
    rw [attempt_none M beta st s hk]
    unfold rowSum
    by_cases hr : s.j = r
    · subst hr
      simp [Fin.ext_iff]
      ring
    · have hr' : ¬r = s.j := fun h => hr h.symm
      simp [hr', hr]
  | some k =>
    rw [attempt_some M beta st s k hk]
    unfold rowSum
    dsimp only
    by_cases hr : s.j = r
    · subst hr
      by_cases hlt : s.j < k
      · simp [hlt, Fin.ext_iff]
        ring
      · simp [hlt, Fin.ext_iff]
        ring
    · have hr' : ¬r = s.j := fun h => hr h.symm
      simp [hr', hr]

/-- No attempt ever decreases a collection-matrix cell. -/
lemma attempt_mono (M : ℕ) (beta : ℝ) (st : GEEStep) (s : WalkerCState)
    (r : ℕ) (c : Fin 3) :
    s.C r c ≤ (attempt_growth_stage_transition M beta st s).C r c := by
  cases hk : candidateOf M st.growth s.j with
  | none =>
    rw [attempt_none M beta st s hk]
    dsimp only
    split_ifs
    · linarith
    · exact le_refl _
  | some k =>
    rw [attempt_some M beta st s k hk]
    dsimp only
    split_ifs <;>
    first
    | exact le_refl _
    | (have h1 := factor_nonneg beta (st.U k - st.U s.j) (log2_correction M s.j k)
       have h2 := factor_le_one beta (st.U k - st.U s.j) (log2_correction M s.j k)
       linarith)

/-- Once crashed, a walker performs no further attempts. -/
lemma runAttempts_crashed (M : ℕ) (beta : ℝ) (l : List GEEStep)
    (s : WalkerCState) (hc : s.crashed = true) : runAttempts M beta l s = s := by
  cases l with
  | nil => rfl
  | cons st rest => simp [runAttempts, hc]

/-- Row sums accumulate exactly the per-stage attempt counts. -/
lemma runAttempts_rowSum (M : ℕ) (beta : ℝ) :
    ∀ (steps : List GEEStep) (s : WalkerCState) (r : ℕ),
      rowSum (runAttempts M beta steps s).C r
        = rowSum s.C r + (attemptsFrom M beta r steps s : ℝ) := by
  intro steps
  induction steps with
  | nil => intro s r; simp [runAttempts, attemptsFrom]
  | cons st rest ih =>
    intro s r
    cases hc : s.crashed with
    | true => simp [runAttempts, attemptsFrom, hc]
    | false =>
      simp only [runAttempts, attemptsFrom, hc, Bool.false_eq_true, if_false]
      rw [ih, attempt_rowSum]
      push_cast
      ring

/-- Collection-matrix cells are monotone along any attempt sequence. -/
lemma runAttempts_mono (M : ℕ) (beta : ℝ) :
    ∀ (steps : List GEEStep) (s : WalkerCState) (r : ℕ) (c : Fin 3),
      s.C r c ≤ (runAttempts M beta steps s).C r c := by
  intro steps
  induction steps with
  | nil => intro s r c; exact le_refl _
  | cons st rest ih =>
    intro s r c
    cases hc : s.crashed with
    | true => simp [runAttempts, hc]
    | false =>
      simp only [runAttempts, hc, Bool.false_eq_true, if_false]
      exact le_trans (attempt_mono M beta st s r c) (ih _ r c)

/-- Running a concatenated attempt sequence equals running the two parts in
order. -/
lemma runAttempts_append (M : ℕ) (beta : ℝ) :
    ∀ (pre post : List GEEStep) (s : WalkerCState),
      runAttempts M beta (pre ++ post) s
        = runAttempts M beta post (runAttempts M beta pre s) := by
  intro pre
  induction pre with
  | nil => intro post s; rfl
  | cons st rest ih =>
    intro post s
    cases hc : s.crashed with
    | true =>
      simp only [List.cons_append, runAttempts, hc, if_true]
      rw [runAttempts_crashed M beta post s hc]
    | false =>
      simp only [List.cons_append, runAttempts, hc, Bool.false_eq_true, if_false]
      exact ih post _

/-- The polymer-solvent interaction vanishes identically at `lambda_val = 0`. -/
lemma ps_interaction_zero_lambda (poly solv : List Vec3) (e s : ℝ) :
    calculate_polymer_solvent_interaction_c4 poly solv 0 e s = 0 := by
  unfold calculate_polymer_solvent_interaction_c4
  split_ifs with h
  · rfl
  · apply List.sum_eq_zero
    intro x hx
    rw [List.mem_map] at hx
    obtain ⟨p, _, rfl⟩ := hx
    apply List.sum_eq_zero
    intro y hy
    rw [List.mem_map] at hy
    obtain ⟨q, _, rfl⟩ := hy
    exact modified_pair_zero_lambda _ _ _

/-- Minimum-image squared distances depend only on coordinate differences, so
they are invariant under a common translation of both endpoints. -/
lemma mimg_translate (box : ℝ) (v a b : Vec3) :
    minimum_image_dist_sq box (fun i => a i + v i) (fun i => b i + v i)
      = minimum_image_dist_sq box a b := by
  unfold minimum_image_dist_sq
  apply Finset.sum_congr rfl
  intro i _
  have h : (b i + v i) - (a i + v i) = b i - a i := by ring
  dsimp only
  rw [h]

/-- The pair loop of the solvent-solvent energy is invariant under any map
that preserves minimum-image squared distances. -/
lemma ss_pair_sum_map_invariant (e s box : ℝ) (f : Vec3 → Vec3)
    (hf : ∀ a b, minimum_image_dist_sq box (f a) (f b) = minimum_image_dist_sq box a b) :
    ∀ l : List Vec3, ss_pair_sum e s box (l.map f) = ss_pair_sum e s box l := by
  intro l
  induction l with
  | nil => rfl
  | cons x xs ih =>
    simp only [List.map_cons, ss_pair_sum]
    rw [ih]
    have hmap : (xs.map f).map (fun y =>
        calculate_lj_energy_pair_standard_c4 (minimum_image_dist_sq box (f x) y) e s)
        = xs.map (fun y =>
        calculate_lj_energy_pair_standard_c4 (minimum_image_dist_sq box x y) e s) := by
      rw [List.map_map]
      apply List.map_congr_left
      intro y _
      dsimp only [Function.comp]
      rw [hf x y]
    rw [hmap]

/-- Rigid translation of the whole solvent configuration by a lattice vector
leaves the solvent-solvent energy (including its exception behaviour)
unchanged. -/
lemma ss_energy_translate (e s box : ℝ) (m : Fin 3 → ℤ) (l : List Vec3) :
    calculate_solvent_solvent_energy_c4 (translateSolvent box m l) e s box
      = calculate_solvent_solvent_energy_c4 l e s box := by
  unfold calculate_solvent_solvent_energy_c4 translateSolvent
  rw [List.length_map]
  split_ifs with h
  · rfl
  · exact ss_pair_sum_map_invariant e s box _
      (fun a b => mimg_translate box (fun i => (m i : ℝ) * box) a b) l

/-- Stage 0 always has `lambda = 0`. -/
lemma lambda_values_zero (M : ℕ) : lambda_values M 0 = 0 := by
  unfold lambda_values
  split_ifs
  · rfl
  · norm_num

/-- Total system energy of a one-monomer, one-solvent-particle system: the
solvent-solvent loop is empty and only the single soft-core pair remains. -/
lemma get_total_singleton (P : SimParams) (p s : Vec3) (stage : ℕ) :
    get_total_system_energy P [p] [s] stage
      = some (calculate_lj_energy_pair_modified_c4 (calculate_distance_sq p s)
          (lambda_values P.num_growth_stages stage) P.eps_ms P.sigma_ms) := by
  unfold get_total_system_energy calculate_solvent_solvent_energy_c4
    calculate_polymer_solvent_interaction_c4
  norm_num

/-- `exp(-20) <= 1/21`, from `x + 1 <= exp x`. -/
lemma exp_neg_twenty_le : Real.exp (-20) ≤ 1 / 21 := by
  have h : (21 : ℝ) ≤ Real.exp 20 := by
    have h' := Real.add_one_le_exp (20 : ℝ)
    linarith
  rw [Real.exp_neg, inv_eq_one_div]
  exact one_div_le_one_div_of_le (by norm_num) h

/-- `1e-9 < exp(-20)`, from `exp 1 < 2.7182818286`. -/
lemma exp_neg_twenty_gt : (1e-9 : ℝ) < Real.exp (-20) := by
  have h20 : Real.exp 20 < 1e9 := by
    have h2 : Real.exp 20 = Real.exp 1 ^ 20 := by
      rw [← Real.exp_nat_mul]
      norm_num
    rw [h2]
    calc Real.exp 1 ^ 20 ≤ 2.7182818286 ^ 20 := by
          apply pow_le_pow_left (Real.exp_pos 1).le Real.exp_one_lt_d9.le
      _ < 1e9 := by norm_num
  rw [Real.exp_neg, show (1e-9 : ℝ) = (1e9)⁻¹ by norm_num]
  exact inv_lt_inv_of_lt (Real.exp_pos 20) h20

/-- Damped mixtures of positives are positive. -/
lemma damped_pos {a b d : ℝ} (ha : 0 < a) (hb : 0 < b) (hd0 : 0 < d)
    (hd1 : d < 1) : 0 < (1 - d) * a + d * b := by nlinarith

/-! ### Claim theorems -/

/-- Claim C9: for every squared pair separation (including the
near-zero-distance branch and the degenerate-denominator branch) and all
epsilon/sigma parameters, the soft-core polymer-solvent pair energy evaluated
at lambda = 0 is exactly 0. -/
theorem C9_softcore_zero_at_lambda_zero (r_sq eps_ms sigma_ms : ℝ) :
    calculate_lj_energy_pair_modified_c4 r_sq 0 eps_ms sigma_ms = 0 :=
  modified_pair_zero_lambda r_sq eps_ms sigma_ms

/-- Claim C7: the final-estimator profile `calculate_F_i_j_minus_F_i_1` is
identical, entry for entry, to the cumulative free-energy estimate `temp_F`
built by steps 1-2 of `update_eta_biasing_factors` on the same collection
matrix: both anchor at 0 for stage 0 and use the same flux-ratio increments
and near-zero-flux edge policies. -/
theorem C7_estimator_matches_eta_profile (beta : ℝ) (C : ℕ → Fin 3 → ℝ) :
    calculate_F_i_j_minus_F_i_1 beta C 0 = 0 ∧
    ∀ j, calculate_F_i_j_minus_F_i_1 beta C j = temp_F beta C j := by
  refine ⟨rfl, fun j => ?_⟩
  induction j with
  | zero => rfl
  | succ n ih =>
    rw [calculate_F_i_j_minus_F_i_1, temp_F, ih, est_step_eq_delta_step]

/-- Claim C8: the inter-bin offset is `-(1/beta)*ln(n_i/n_ref)` whenever both
counts are nonzero, and is the infinity sentinel (`none`) exactly when the
bin count or the reference count is zero. -/
theorem C8_inter_bin_offset (beta : ℝ) (ni_counts : ℕ → ℕ) (nref i : ℕ) :
    (ni_counts i ≠ 0 → nref ≠ 0 →
      calculate_delta_F_i1_initial beta ni_counts nref i
        = some (-(1 / beta) * Real.log ((ni_counts i : ℝ) / (nref : ℝ)))) ∧
    (calculate_delta_F_i1_initial beta ni_counts nref i = none ↔
      ni_counts i = 0 ∨ nref = 0) := by
  unfold calculate_delta_F_i1_initial
  constructor
  · intro h1 h2
    rw [if_neg (by push_neg; exact ⟨h1, h2⟩)]
  · split_ifs with h
    · simp [h]
    · simp [h]

/-- Witness for C8 at bin count 3, reference count 2. -/
theorem C8_inter_bin_offset_witness :
    calculate_delta_F_i1_initial 1 (fun _ => 3) 2 0
      = some (-(1 / 1) * Real.log (((3 : ℕ) : ℝ) / ((2 : ℕ) : ℝ))) := by
  exact (C8_inter_bin_offset 1 (fun _ => 3) 2 0).1 (by norm_num) (by norm_num)

/-- Claim C10: for a collection matrix with non-negative (finite, in this
exact-real model) entries, every per-step increment of the estimator profile
is 0, +20, -20, or `-(1/beta)` times the logarithm of a ratio greater than
1e-9 (hence each profile entry is a finite sum of finite terms). -/
theorem C10_estimator_increment_forms (beta : ℝ) (C : ℕ → Fin 3 → ℝ) (j : ℕ)
    (_hC : ∀ r c, 0 ≤ C r c) :
    est_delta_F_step beta C j = 0 ∨ est_delta_F_step beta C j = 20 ∨
    est_delta_F_step beta C j = -20 ∨
    ∃ q : ℝ, 1e-9 < q ∧ est_delta_F_step beta C j = -(1 / beta) * Real.log q := by
  unfold est_delta_F_step
  dsimp only
  split_ifs with h1 h2 h3 h4 h5
  · left; rfl
  · right; right; left; rfl
  · right; left; rfl
  · right; right; right; exact ⟨_, h4, rfl⟩
  · right; left; rfl
  · left; rfl

/-- Counterexample to C1 as stated: one monomer at the origin, one solvent
particle at (2,0,0), box length 8.9, at the fully coupled stage (lambda = 1).
Rigidly translating the solvent configuration by one box length along x
changes the total system energy, because the polymer-solvent soft-core term is
computed from unwrapped separations. -/
theorem C1_translation_counterexample :
    get_total_system_energy cexP cexPoly
        (translateSolvent cexP.box_side_length cexm cexSolv) 1
      ≠ get_total_system_energy cexP cexPoly cexSolv 1 := by
  have htr : translateSolvent cexP.box_side_length cexm cexSolv
      = [fun i => if i = 0 then (10.9 : ℝ) else 0] := by
    unfold translateSolvent cexSolv cexm cexP
    simp only [List.map_cons, List.map_nil]
    congr 1
    funext i
    by_cases hi : i = 0
    · subst hi; norm_num
    · simp [hi]
  rw [htr]
  unfold cexPoly cexSolv
  rw [get_total_singleton, get_total_singleton]
  have hM : cexP.num_growth_stages = 2 := rfl
  have heps : cexP.eps_ms = 1 := rfl
  have hsig : cexP.sigma_ms = 1 := rfl
  have hlam : lambda_values 2 1 = 1 := by
    unfold lambda_values
    norm_num
  have hd1 : calculate_distance_sq (fun _ => (0 : ℝ))
      (fun i => if i = 0 then (10.9 : ℝ) else 0) = 118.81 := by
    unfold calculate_distance_sq
    rw [Fin.sum_univ_three]
    dsimp only
    rw [if_pos rfl, if_neg (by decide), if_neg (by decide)]
    norm_num
  have hd2 : calculate_distance_sq (fun _ => (0 : ℝ))
      (fun i => if i = 0 then (2 : ℝ) else 0) = 4 := by
    unfold calculate_distance_sq
    rw [Fin.sum_univ_three]
    dsimp only
    rw [if_pos rfl, if_neg (by decide), if_neg (by decide)]
    norm_num
  rw [hM, heps, hsig, hlam, hd1, hd2]
  have hp1 : calculate_lj_energy_pair_modified_c4 118.81 1 1 1
      = 4 * (1 / (((100 : ℝ) / 11881) ^ 3) ^ 2 - 1 / ((100 : ℝ) / 11881) ^ 3) := by
    unfold calculate_lj_energy_pair_modified_c4
    dsimp only
    have hD : 0.5 * ((1 : ℝ) - 1) ^ 2 + ((1 : ℝ) ^ 2 / 118.81) ^ 3
        = ((100 : ℝ) / 11881) ^ 3 := by norm_num
    rw [if_neg (by norm_num), hD, if_neg ?hDbig]
    case hDbig =>
      rw [abs_of_nonneg (by positivity)]
      norm_num
    norm_num
  have hp2 : calculate_lj_energy_pair_modified_c4 4 1 1 1 = 16128 := by
    unfold calculate_lj_energy_pair_modified_c4
    dsimp only
    have hD : 0.5 * ((1 : ℝ) - 1) ^ 2 + ((1 : ℝ) ^ 2 / 4) ^ 3 = (1 : ℝ) / 64 := by
      norm_num
    rw [if_neg (by norm_num), hD, if_neg ?hDbig2]
    case hDbig2 =>
      rw [abs_of_nonneg (by positivity)]
      norm_num
    norm_num
  rw [hp1, hp2]
  simp only [ne_eq, Option.some.injEq]
  norm_num

/-- Claim C1 amended: the solvent-solvent (minimum-image) energy is invariant
under rigidly translating the whole solvent configuration by any integer
multiple of the box length, and the total system energy is invariant at
growth stage 0 (lambda = 0); at coupled stages the polymer-solvent soft-core
term uses unwrapped separations and the invariance fails. -/
theorem C1_translation_amended (P : SimParams) (poly solv : List Vec3)
    (m : Fin 3 → ℤ) :
    calculate_solvent_solvent_energy_c4 (translateSolvent P.box_side_length m solv)
        P.eps_ss P.sigma_ss P.box_side_length
      = calculate_solvent_solvent_energy_c4 solv P.eps_ss P.sigma_ss P.box_side_length ∧
    get_total_system_energy P poly (translateSolvent P.box_side_length m solv) 0
      = get_total_system_energy P poly solv 0 := by
  refine ⟨ss_energy_translate P.eps_ss P.sigma_ss P.box_side_length m solv, ?_⟩
  have hlen : (translateSolvent P.box_side_length m solv).length = solv.length := by
    unfold translateSolvent
    exact List.length_map _ _
  unfold get_total_system_energy
  dsimp only
  rw [hlen, lambda_values_zero, ps_interaction_zero_lambda, ps_interaction_zero_lambda,
    ss_energy_translate]

/-- Claim C2: an attempt toward an existing candidate `k` adds
`w = min(1, exp(-beta*dU + c))` to row `j`'s column matching the direction of
`k` and `1 - w` to the stay column, with `c = ln 2` for `0→1` and
`(M-2)→(M-1)`, `c = -ln 2` for `1→0` and `(M-1)→(M-2)`, else `c = 0`; with no
candidate it adds exactly 1 to the stay column of row `j`. -/
theorem C2_collection_matrix_accumulation (M : ℕ) (beta : ℝ) (st : GEEStep)
    (s : WalkerCState) :
    (∀ k, candidateOf M st.growth s.j = some k →
      (attempt_growth_stage_transition M beta st s).C s.j (if s.j < k then 2 else 0)
        = s.C s.j (if s.j < k then 2 else 0)
          + min 1 (Real.exp (-beta * (st.U k - st.U s.j) + claimBoundaryC M s.j k)) ∧
      (attempt_growth_stage_transition M beta st s).C s.j 1
        = s.C s.j 1
          + (1 - min 1 (Real.exp (-beta * (st.U k - st.U s.j) + claimBoundaryC M s.j k)))) ∧
    (candidateOf M st.growth s.j = none →
      (attempt_growth_stage_transition M beta st s).C s.j 1 = s.C s.j 1 + 1) := by
  constructor
  · intro k hk
    have hc := log2_correction_eq_claim hk
    have hw : factor_for_Ci_update beta (st.U k - st.U s.j) (log2_correction M s.j k)
        = min 1 (Real.exp (-beta * (st.U k - st.U s.j) + claimBoundaryC M s.j k)) := by
      rw [factor_eq_min_exp, hc]
    rw [attempt_some M beta st s k hk]
    dsimp only
    constructor
    · by_cases hlt : s.j < k
      · simp [hlt, hw]
      · simp [hlt, hw]
    · by_cases hlt : s.j < k
      · simp [hlt, hw, Fin.ext_iff]
      · simp [hlt, hw, Fin.ext_iff]
  · intro hk
    rw [attempt_none M beta st s hk]
    simp

/-- Witness for C2: the growing attempt from stage 0 with candidate 1. -/
theorem C2_collection_matrix_accumulation_witness :
    (attempt_growth_stage_transition 3 1 c2_step c2_state).C 0 2
      = c2_state.C 0 2
        + min 1 (Real.exp (-1 * (c2_step.U 1 - c2_step.U 0) + claimBoundaryC 3 0 1)) ∧
    (attempt_growth_stage_transition 3 1 c2_step c2_state).C 0 1
      = c2_state.C 0 1
        + (1 - min 1 (Real.exp (-1 * (c2_step.U 1 - c2_step.U 0) + claimBoundaryC 3 0 1))) := by
  have hk : candidateOf 3 c2_step.growth c2_state.j = some 1 := by
    unfold candidateOf c2_step c2_state
    norm_num
  have h := (C2_collection_matrix_accumulation 3 1 c2_step c2_state).1 1 hk
  have hj : c2_state.j = 0 := rfl
  rw [hj] at h
  simpa using h

/-- Claim C5 (code bug evaluation): at the no-candidate input the attempt does
add 1 to the stay column of the current row and leaves the stage unchanged,
but it does NOT complete normally: the read of the never-assigned local
`p_acc_biased_for_walk` (source line 375; line 365 initialises the differently
named `p_acc_biased_walk`) raises UnboundLocalError, modelled by
`crashed = true`. -/
theorem C5_no_candidate_attempt_raises :
    (attempt_growth_stage_transition 2 1 c5_step c5_state).crashed = true ∧
    (attempt_growth_stage_transition 2 1 c5_step c5_state).j = 1 ∧
    (attempt_growth_stage_transition 2 1 c5_step c5_state).C 1 1
      = c5_state.C 1 1 + 1 := by
  have hk : candidateOf 2 c5_step.growth c5_state.j = none := by
    unfold candidateOf c5_step c5_state
    norm_num
  rw [attempt_none 2 1 c5_step c5_state hk]
  refine ⟨rfl, rfl, ?_⟩
  have hj : c5_state.j = 1 := rfl
  simp [hj]

/-- Claim C6: along any sequence of growth-stage transition attempts the
collection-matrix cells (hence the row sums) never decrease, the sum of row
`r` grows by exactly the number of attempts executed from stage `r`, and
running a concatenation equals running the parts in order (so the row sums
are monotone in step order). -/
theorem C6_row_sums_count_attempts (M : ℕ) (beta : ℝ) (steps : List GEEStep)
    (s : WalkerCState) :
    (∀ r, rowSum (runAttempts M beta steps s).C r
        = rowSum s.C r + (attemptsFrom M beta r steps s : ℝ)) ∧
    (∀ (r : ℕ) (c : Fin 3), s.C r c ≤ (runAttempts M beta steps s).C r c) ∧
    (∀ pre post : List GEEStep, runAttempts M beta (pre ++ post) s
        = runAttempts M beta post (runAttempts M beta pre s)) :=
  ⟨fun r => runAttempts_rowSum M beta steps s r,
   fun r c => runAttempts_mono M beta steps s r c,
   fun pre post => runAttempts_append M beta pre post s⟩

/-- Counterexample to C3 as stated: with `eta j = 1e13` (not numerically
zero; the energetic term `dU = 0` does not favour rejection, so the claim's
proviso does not apply) and `eta k = 1`, the code returns acceptance
probability 0, while the claim's formula
`min(1, exp(ln(eta k / eta j) - beta*dU + c))` is strictly positive. -/
theorem C3_acceptance_counterexample :
    p_acc_biased_walk 1 c3_eta 0 1 0 0 = 0 ∧ 0 < p_acc_spec 1 c3_eta 0 1 0 0 := by
  constructor
  · have h0 : c3_eta 0 = 1e13 := by norm_num [c3_eta]
    have h1 : c3_eta 1 = 1 := by norm_num [c3_eta]
    unfold p_acc_biased_walk
    rw [h0, h1, if_pos (by norm_num), if_neg (by norm_num)]
  · exact lt_min one_pos (Real.exp_pos _)

/-- Claim C3 amended: the acceptance probability equals the claimed
`min(1, exp(ln(eta k / eta j) - beta*dU + c))` whenever `|eta j| > 1e-12` and
`eta k / eta j > 1e-12`; it is 0 when the ratio fails its `1e-12` guard or
when `eta j` is numerically zero with `dU*beta > 0`; it is
`min(1, exp(-beta*dU + c))` (ratio term dropped as 0) when `eta j` is
numerically zero and `dU*beta <= 0`; and with `dU = 0`, equal bias weights
and `c = 0` it is exactly 1. -/
theorem C3_acceptance_probability_amended (beta : ℝ) (eta : ℕ → ℝ) (j k : ℕ)
    (dU c : ℝ) :
    (|eta j| > 1e-12 → eta k / eta j > 1e-12 →
      p_acc_biased_walk beta eta j k dU c = p_acc_spec beta eta j k dU c) ∧
    (|eta j| > 1e-12 → ¬(eta k / eta j > 1e-12) →
      p_acc_biased_walk beta eta j k dU c = 0) ∧
    (¬(|eta j| > 1e-12) → dU * beta > 0 → p_acc_biased_walk beta eta j k dU c = 0) ∧
    (¬(|eta j| > 1e-12) → ¬(dU * beta > 0) →
      p_acc_biased_walk beta eta j k dU c = min 1 (Real.exp (-beta * dU + c))) ∧
    (dU = 0 → eta j = eta k → c = 0 → p_acc_biased_walk beta eta j k dU c = 1) := by
  refine ⟨?_, ?_, ?_, ?_, ?_⟩
  · intro h1 h2
    unfold p_acc_biased_walk p_acc_spec
    rw [if_pos h1, if_pos h2, clampExp_eq_min]
  · intro h1 h2
    unfold p_acc_biased_walk
    rw [if_pos h1, if_neg h2]
  · intro h1 h2
    unfold p_acc_biased_walk
    rw [if_neg h1, if_pos h2]
  · intro h1 h2
    unfold p_acc_biased_walk
    rw [if_neg h1, if_neg h2, clampExp_eq_min]
  · intro hdU heq hc
    subst hdU
    subst hc
    unfold p_acc_biased_walk
    by_cases h1 : |eta j| > 1e-12
    · have hne : eta j ≠ 0 := by
        intro h0
        rw [h0] at h1
        norm_num at h1
      have hq : eta k / eta j = 1 := by
        rw [← heq]
        exact div_self hne
      rw [if_pos h1, hq, if_pos (by norm_num)]
      unfold clampExp
      rw [Real.log_one]
      norm_num
    · rw [if_neg h1, if_neg (by norm_num)]
      unfold clampExp
      norm_num

/-- Witness for the amended C3 at unit bias weights and zero energy change:
the valid-branch formula applies and the acceptance probability is exactly
1. -/
theorem C3_acceptance_probability_amended_witness :
    p_acc_biased_walk 1 (fun _ => 1) 0 1 0 0 = p_acc_spec 1 (fun _ => 1) 0 1 0 0 ∧
    p_acc_biased_walk 1 (fun _ => 1) 0 1 0 0 = 1 :=
  ⟨(C3_acceptance_probability_amended 1 (fun _ => 1) 0 1 0 0).1
      (by norm_num) (by norm_num),
   (C3_acceptance_probability_amended 1 (fun _ => 1) 0 1 0 0).2.2.2.2 rfl rfl rfl⟩

/-- Claim C4 amended: the bias-weight vector is all-ones at walker creation,
and after every call of the eta re-estimation (for any collection matrix and
any strictly positive prior eta, with damping factor in (0,1)) every entry of
eta is strictly positive.  The claimed "minimum valid entry equals 1 after
each update" holds for the undamped candidate but not for the damped eta the
update stores (see the counterexample). -/
theorem C4_eta_positivity_amended (M : ℕ) (beta d : ℝ) (C : ℕ → Fin 3 → ℝ)
    (eta : ℕ → ℝ) (heta : ∀ i, 0 < eta i) (hd0 : 0 < d) (hd1 : d < 1) :
    (∀ i, eta_init i = 1) ∧
    (∀ i, 0 < update_eta_biasing_factors M beta d C eta i) := by
  refine ⟨fun i => rfl, fun i => ?_⟩
  unfold update_eta_biasing_factors
  by_cases hM : M = 0
  · rw [dif_pos hM]
    norm_num
  · rw [dif_neg hM]
    dsimp only
    split_ifs with hsum h1 h2 h3
    all_goals dsimp only
    all_goals
      first
        | (norm_num; done)
        | (refine damped_pos (heta i) ?_ hd0 hd1
           refine div_pos (div_pos one_pos (add_pos (div_pos (Real.exp_pos _)
             (by linarith)) (by norm_num))) ?_
           first
             | norm_num
             | linarith)

/-- Counterexample to C4 as stated: with M = 2 stages, beta = 1, the default
damping 0.2, a collection matrix with one recorded `0 → 1` flux, and the prior
eta = (1, 2) (strictly positive, minimum valid entry 1), the damped update
returns eta = (0.8 + 0.2*etaPrime 0, 1.8) with etaPrime 0 > 5, so every entry
exceeds 1 and the minimum (valid) entry is 9/5, not 1. -/
theorem C4_eta_normalization_counterexample :
    update_eta_biasing_factors 2 1 (1 / 5) c4_C c4_eta 1 = 9 / 5 ∧
    9 / 5 < update_eta_biasing_factors 2 1 (1 / 5) c4_C c4_eta 0 := by
  have hdelta : delta_F_step 1 c4_C 0 = -20 := by
    unfold delta_F_step c4_C
    norm_num [Fin.ext_iff]
  have hF0 : temp_F 1 c4_C 0 = 0 := rfl
  have hF1 : temp_F 1 c4_C 1 = -20 := by
    have h : temp_F 1 c4_C 1 = temp_F 1 c4_C 0 + delta_F_step 1 c4_C 0 := rfl
    rw [h, hF0, hdelta]
    norm_num
  have ha0 : (0 : ℝ) < Real.exp (-20) := Real.exp_pos _
  have ha1 : Real.exp (-20) ≤ 1 / 21 := exp_neg_twenty_le
  have ha2 : (1e-9 : ℝ) < Real.exp (-20) := exp_neg_twenty_gt
  have hminF : ∀ h : (Finset.range 2).Nonempty,
      (Finset.range 2).inf' h (temp_F 1 c4_C) = -20 := by
    intro h
    apply le_antisymm
    · refine le_trans (Finset.inf'_le _ (Finset.mem_range.mpr (by norm_num : (1:ℕ) < 2))) ?_
      rw [hF1]
    · apply Finset.le_inf'
      intro b hb
      rw [Finset.mem_range] at hb
      interval_cases b
      · rw [hF0]; norm_num
      · rw [hF1]
  have e0 : Real.exp (-1 * (temp_F 1 c4_C 0 - -20)) = Real.exp (-20) := by
    rw [hF0]; norm_num
  have e1 : Real.exp (-1 * (temp_F 1 c4_C 1 - -20)) = 1 := by
    rw [hF1]; norm_num
  have hsum : (∑ j ∈ Finset.range 2, Real.exp (-1 * (temp_F 1 c4_C j - -20)))
      = Real.exp (-20) + 1 := by
    rw [Finset.sum_range_succ, Finset.sum_range_one, e0, e1]
  have hfilter : (Finset.range 2).filter
      (fun j => Real.exp (-1 * (temp_F 1 c4_C j - -20)) / (Real.exp (-20) + 1) > 1e-12)
      = Finset.range 2 := by
    apply Finset.filter_true_of_mem
    intro j hj
    rw [Finset.mem_range] at hj
    interval_cases j
    · rw [e0, gt_iff_lt, lt_div_iff (by linarith)]
      linarith
    · rw [e1, gt_iff_lt, lt_div_iff (by linarith)]
      linarith
  have hinf : ∀ h : (Finset.range 2).Nonempty,
      (Finset.range 2).inf' h (fun j =>
        1 / (Real.exp (-1 * (temp_F 1 c4_C j - -20)) / (Real.exp (-20) + 1) + 1e-12))
      = 1 / (1 / (Real.exp (-20) + 1) + 1e-12) := by
    intro h
    apply le_antisymm
    · refine le_trans (Finset.inf'_le _ (Finset.mem_range.mpr (by norm_num : (1:ℕ) < 2))) ?_
      rw [e1]
    · apply Finset.le_inf'
      intro b hb
      rw [Finset.mem_range] at hb
      interval_cases b
      · rw [e0]
        apply one_div_le_one_div_of_le
        · positivity
        · have hden : Real.exp (-20) / (Real.exp (-20) + 1)
              ≤ 1 / (Real.exp (-20) + 1) := by
            rw [div_le_div_right (by linarith)]
            linarith
          linarith
      · rw [e1]
  unfold update_eta_biasing_factors
  rw [dif_neg (by norm_num : ¬(2 = 0))]
  dsimp only
  rw [hminF, hsum, if_pos (by linarith : Real.exp (-20) + 1 > 1e-9)]
  rw [e0, e1, hfilter, dif_pos (Finset.nonempty_range_iff.mpr (by norm_num)), hinf]
  rw [if_neg ?hclamp]
  case hclamp =>
    push_neg
    have hden_pos : (0 : ℝ) < 1 / (Real.exp (-20) + 1) + 1e-12 := by positivity
    rw [le_div_iff hden_pos]
    have h1 : 1 / (Real.exp (-20) + 1) ≤ 1 := by
      rw [div_le_one (by linarith)]
      linarith
    have h2 : (0 : ℝ) < 1 / (Real.exp (-20) + 1) := by positivity
    linarith
  constructor
  · rw [show c4_eta 1 = 2 by norm_num [c4_eta]]
    rw [div_self (ne_of_gt (by positivity :
      (0 : ℝ) < 1 / (1 / (Real.exp (-20) + 1) + 1e-12)))]
    norm_num
  · rw [show c4_eta 0 = 1 by norm_num [c4_eta]]
    have hR : (1 / (Real.exp (-20) / (Real.exp (-20) + 1) + 1e-12))
          / (1 / (1 / (Real.exp (-20) + 1) + 1e-12))
        = (1 / (Real.exp (-20) + 1) + 1e-12)
          / (Real.exp (-20) / (Real.exp (-20) + 1) + 1e-12) := by
      rw [one_div, one_div, div_eq_mul_inv, inv_inv, mul_comm, ← div_eq_mul_inv]
    rw [hR]
    have hp0t : (0 : ℝ) < Real.exp (-20) / (Real.exp (-20) + 1) + 1e-12 := by
      positivity
    have h5 : (5 : ℝ) < (1 / (Real.exp (-20) + 1) + 1e-12)
        / (Real.exp (-20) / (Real.exp (-20) + 1) + 1e-12) := by
      rw [lt_div_iff hp0t]
      have hA : Real.exp (-20) / (Real.exp (-20) + 1) ≤ Real.exp (-20) :=
        div_le_self ha0.le (by linarith)
      have hB : (1 : ℝ) / 3 ≤ 1 / (Real.exp (-20) + 1) :=
        one_div_le_one_div_of_le (by linarith) (by linarith)
      linarith
    linarith

/-- Witness for the amended C4 at unit priors, damping 1/5, zero matrix. -/
theorem C4_eta_positivity_amended_witness :
    (∀ i, eta_init i = 1) ∧
    (∀ i, 0 < update_eta_biasing_factors 1 1 (1 / 5) (fun _ _ => 0) (fun _ => 1) i) :=
  C4_eta_positivity_amended 1 1 (1 / 5) (fun _ _ => 0) (fun _ => 1)
    (fun _ => one_pos) (by norm_num) (by norm_num)

/-- Witness for C10 on the all-zero collection matrix. -/
theorem C10_estimator_increment_forms_witness :
    est_delta_F_step 1 (fun _ _ => 0) 0 = 0 ∨
    est_delta_F_step 1 (fun _ _ => 0) 0 = 20 ∨
    est_delta_F_step 1 (fun _ _ => 0) 0 = -20 ∨
    ∃ q : ℝ, 1e-9 < q ∧ est_delta_F_step 1 (fun _ _ => 0) 0 = -(1 / 1) * Real.log q :=
  C10_estimator_increment_forms 1 (fun _ _ => 0) 0 (fun _ _ => le_refl 0)

end

end TmmcLjpoly
